import Mathlib

/-!
Verification of the core of a STDIN/STDOUT ↔ SSE/HTTP JSON-RPC proxy
(`src/main.py`).  The Python source is shallowly embedded: pure functions
become Lean functions on `String`/`List Char`, the shared mutable
`ProxyState` becomes a record threaded explicitly, and the stdlib
collaborators (`json.loads`, `urllib.parse.urljoin`, `str.strip`) are
modelled as executable Lean functions at the fidelity the proofs need.
-/

namespace Proxy

/-! ### Python string primitives

Python `str.strip()` / `str.lstrip()` with no arguments strip the ASCII
whitespace characters space, tab, newline, carriage return, vertical tab
and form feed.  All string manipulation is done on `List Char` (structural
recursion, kernel-reducible) and converted at the boundary. -/

def pyIsSpace (c : Char) : Bool :=
  c = ' ' || c = '\t' || c = '\n' || c = '\x0d' || c = '\x0b' || c = '\x0c'

def lstripChars (cs : List Char) : List Char := cs.dropWhile pyIsSpace

def stripChars (cs : List Char) : List Char :=
  ((cs.dropWhile pyIsSpace).reverse.dropWhile pyIsSpace).reverse

/-- Python `s.strip()`. -/
def pyStrip (s : String) : String := String.mk (stripChars s.data)

/-- Python `s.lstrip()`. -/
def pyLstrip (s : String) : String := String.mk (lstripChars s.data)

/-- Tests that `pfx` is a prefix of `cs` (Python `str.startswith`). -/
def listStartsWith (pfx cs : List Char) : Bool :=
  match pfx, cs with
  | [], _ => true
  | _ :: _, [] => false
  | p :: ps, c :: rest => p = c && listStartsWith ps rest

/-- Split a character list on a single separator character
(Python `str.split(sep)`: always at least one piece, empty pieces kept). -/
def splitOnChar (sep : Char) : List Char → List (List Char)
  | [] => [[]]
  | c :: rest =>
    let r := splitOnChar sep rest
    if c = sep then [] :: r
    else match r with
      | [] => [[c]]
      | piece :: more => (c :: piece) :: more

/-- Join character lists with a single separator character
(Python `sep.join(pieces)`). -/
def joinWithChar (sep : Char) : List (List Char) → List Char
  | [] => []
  | [p] => p
  | p :: rest => p ++ sep :: joinWithChar sep rest

/-! ### JSON values and Python `json.loads`

Numbers are kept unevaluated as `mantissa * 10 ^ exp10` (Python's
int/float distinction does not matter to the proxy: only Python
truthiness of parsed values is ever consulted).  `NaN`/`Infinity`/
`-Infinity`, which Python's decoder accepts, get their own constructor.
Objects are insertion-ordered key/value lists with unique keys; a
duplicate key keeps its first position and the last value, as for a
Python dict built by repeated assignment. -/

inductive Json where
  | null
  | bool (b : Bool)
  | num (mantissa : Int) (exp10 : Int)
  | nonfinite (neg : Bool) (isNan : Bool)
  | str (s : String)
  | arr (elems : List Json)
  | obj (fields : List (String × Json))

/-- Python truthiness of a JSON value (`bool(x)`). -/
def Json.truthy : Json → Bool
  | .null => false
  | .bool b => b
  | .num m _ => m != 0
  | .nonfinite _ _ => true
  | .str s => s != ""
  | .arr xs => !xs.isEmpty
  | .obj kvs => !kvs.isEmpty

/-- Python `dict[k] = v`: replace in place or append. -/
def objInsert : List (String × Json) → String → Json → List (String × Json)
  | [], k, v => [(k, v)]
  | (k0, v0) :: rest, k, v =>
    if k0 = k then (k0, v) :: rest else (k0, v0) :: objInsert rest k v

/-- Python `dict.get(k)`. -/
def jget : List (String × Json) → String → Option Json
  | [], _ => none
  | (k0, v) :: rest, k => if k0 = k then some v else jget rest k

/-- JSON inter-token whitespace (Python json accepts space, tab, LF, CR). -/
def jsonWs (c : Char) : Bool := c = ' ' || c = '\t' || c = '\n' || c = '\x0d'

def skipJsonWs (cs : List Char) : List Char := cs.dropWhile jsonWs

def hexVal (c : Char) : Option Nat :=
  let n := c.toNat
  if 48 ≤ n && n ≤ 57 then some (n - 48)
  else if 65 ≤ n && n ≤ 70 then some (n - 55)
  else if 97 ≤ n && n ≤ 102 then some (n - 87)
  else none

/-- Scan a JSON string body (opening quote already consumed); strict mode:
raw control characters below 0x20 are rejected.  `\uXXXX` maps through
`Char.ofNat` (lone surrogates, unrepresentable in Lean, degrade to NUL). -/
def parseJsonString : List Char → List Char → Option (String × List Char)
  | [], _ => none
  | '"' :: rest, acc => some (String.mk acc.reverse, rest)
  | '\\' :: '"' :: r, acc => parseJsonString r ('"' :: acc)
  | '\\' :: '\\' :: r, acc => parseJsonString r ('\\' :: acc)
  | '\\' :: '/' :: r, acc => parseJsonString r ('/' :: acc)
  | '\\' :: 'b' :: r, acc => parseJsonString r ('\x08' :: acc)
  | '\\' :: 'f' :: r, acc => parseJsonString r ('\x0c' :: acc)
  | '\\' :: 'n' :: r, acc => parseJsonString r ('\n' :: acc)
  | '\\' :: 'r' :: r, acc => parseJsonString r ('\x0d' :: acc)
  | '\\' :: 't' :: r, acc => parseJsonString r ('\t' :: acc)
  | '\\' :: 'u' :: h1 :: h2 :: h3 :: h4 :: r, acc =>
    (match hexVal h1, hexVal h2, hexVal h3, hexVal h4 with
     | some a, some b, some c, some d =>
       parseJsonString r (Char.ofNat (((a * 16 + b) * 16 + c) * 16 + d) :: acc)
     | _, _, _, _ => none)
  | '\\' :: _, _ => none
  | c :: rest, acc =>
    if c.toNat < 32 then none else parseJsonString rest (c :: acc)

def digitsToNat (ds : List Char) : Nat :=
  ds.foldl (fun acc c => acc * 10 + (c.toNat - 48)) 0

/-- Fraction and exponent of a number token, after the integer digits
(JSON grammar `(\.\d+)? ([eE][+-]?\d+)?`; an unmatched suffix is left in
the remainder, as for Python's regex-based scanner). -/
def afterIntDigits (neg : Bool) (intDigits cs : List Char) : Json × List Char :=
  let fracSplit : List Char × List Char :=
    match cs with
    | '.' :: r =>
      let ds := r.takeWhile Char.isDigit
      if ds.isEmpty then ([], cs) else (ds, r.dropWhile Char.isDigit)
    | _ => ([], cs)
  let fracDigits := fracSplit.1
  let cs2 := fracSplit.2
  let expSplit : Int × List Char :=
    match cs2 with
    | 'e' :: '+' :: r => expTail 1 r cs2
    | 'e' :: '-' :: r => expTail (-1) r cs2
    | 'e' :: r => expTail 1 r cs2
    | 'E' :: '+' :: r => expTail 1 r cs2
    | 'E' :: '-' :: r => expTail (-1) r cs2
    | 'E' :: r => expTail 1 r cs2
    | _ => (0, cs2)
  let mantNat := digitsToNat (intDigits ++ fracDigits)
  let mant : Int := if neg then -(mantNat : Int) else (mantNat : Int)
  (.num mant (expSplit.1 - fracDigits.length), expSplit.2)
where
  expTail (sign : Int) (r orig : List Char) : Int × List Char :=
    let ds := r.takeWhile Char.isDigit
    if ds.isEmpty then (0, orig)
    else (sign * (digitsToNat ds : Int), r.dropWhile Char.isDigit)

/-- One JSON number token at the head of the input
(`-? (0 | [1-9]\d*) (\.\d+)? ([eE][+-]?\d+)?`). -/
def parseJsonNumber (cs : List Char) : Option (Json × List Char) :=
  let signSplit : Bool × List Char :=
    match cs with
    | '-' :: r => (true, r)
    | _ => (false, cs)
  let neg := signSplit.1
  match signSplit.2 with
  | '0' :: r => some (afterIntDigits neg ['0'] r)
  | c :: r =>
    if c.isDigit then
      some (afterIntDigits neg (c :: r.takeWhile Char.isDigit) (r.dropWhile Char.isDigit))
    else none
  | [] => none

/-- Parser mode: a value, the members of an object (after `{`), or the
elements of an array (after `[`). -/
inductive JMode where
  | value
  | members (acc : List (String × Json))
  | elems (acc : List Json)

/-- Recursive-descent JSON scanner, fuelled for structural recursion. -/
def parseJ : Nat → JMode → List Char → Option (Json × List Char)
  | 0, _, _ => none
  | fuel + 1, .value, cs0 =>
    let cs := skipJsonWs cs0
    (match cs with
     | '"' :: rest =>
       (match parseJsonString rest [] with
        | some (s, r) => some (.str s, r)
        | none => none)
     | '{' :: rest =>
       let rest2 := skipJsonWs rest
       (match rest2 with
        | '}' :: r2 => some (.obj [], r2)
        | _ => parseJ fuel (.members []) rest2)
     | '[' :: rest =>
       let rest2 := skipJsonWs rest
       (match rest2 with
        | ']' :: r2 => some (.arr [], r2)
        | _ => parseJ fuel (.elems []) rest2)
     | _ =>
       if listStartsWith "true".data cs then some (.bool true, cs.drop 4)
       else if listStartsWith "false".data cs then some (.bool false, cs.drop 5)
       else if listStartsWith "null".data cs then some (.null, cs.drop 4)
       else if listStartsWith "NaN".data cs then some (.nonfinite false true, cs.drop 3)
       else if listStartsWith "Infinity".data cs then some (.nonfinite false false, cs.drop 8)
       else if listStartsWith "-Infinity".data cs then some (.nonfinite true false, cs.drop 9)
       else parseJsonNumber cs)
  | fuel + 1, .members acc, cs =>
    (match cs with
     | '"' :: rest =>
       (match parseJsonString rest [] with
        | some (k, r1) =>
          (match skipJsonWs r1 with
           | ':' :: r2 =>
             (match parseJ fuel .value r2 with
              | some (v, r3) =>
                let acc2 := objInsert acc k v
                (match skipJsonWs r3 with
                 | ',' :: r4 => parseJ fuel (.members acc2) (skipJsonWs r4)
                 | '}' :: r4 => some (.obj acc2, r4)
                 | _ => none)
              | none => none)
           | _ => none)
        | none => none)
     | _ => none)
  | fuel + 1, .elems acc, cs =>
    (match parseJ fuel .value cs with
     | some (v, r1) =>
       (match skipJsonWs r1 with
        | ',' :: r2 => parseJ fuel (.elems (acc ++ [v])) r2
        | ']' :: r2 => some (.arr (acc ++ [v]), r2)
        | _ => none)
     | none => none)

/-- Python `json.loads`: one JSON document, optionally surrounded by
whitespace; anything left over is an error (`None` here). -/
def json_loads (s : String) : Option Json :=
  match parseJ (2 * s.data.length + 4) .value s.data with
  | some (v, rest) => if skipJsonWs rest = [] then some v else none
  | none => none

/-- Truthiness of `Optional[Json]` (Python `bool(x)` with `None` falsy). -/
def pyTruthy : Option Json → Bool
  | none => false
  | some v => v.truthy

/-- Python `a or b` on optional JSON values. -/
def pyOr (a b : Option Json) : Option Json := if pyTruthy a then a else b

/-! ### `urllib.parse.urljoin`

Model of CPython's `urlsplit`/`urlunsplit`/`urljoin` restricted to the
five components scheme, netloc, path, query, fragment (the legacy
`;params` split of `urlparse` is folded into the path; the proxy only
ever joins http(s) URLs, where the two agree). -/

structure SplitUrl where
  scheme : List Char
  netloc : List Char
  path : List Char
  query : List Char
  fragment : List Char

/-- Split at the first occurrence of `sep` (absent → `none`). -/
def splitAtChar (sep : Char) : List Char → Option (List Char × List Char)
  | [] => none
  | c :: rest =>
    if c = sep then some ([], rest)
    else match splitAtChar sep rest with
      | some (a, b) => some (c :: a, b)
      | none => none

def isSchemeChar (c : Char) : Bool :=
  c.isAlpha || c.isDigit || c = '+' || c = '-' || c = '.'

def isNetlocEnd (c : Char) : Bool := c = '/' || c = '?' || c = '#'

/-- Model of `urlsplit(url, scheme=default)`. -/
def urlsplitCore (url defaultScheme : List Char) : SplitUrl :=
  let schemeSplit : List Char × List Char :=
    match splitAtChar ':' url with
    | some (pre, after) =>
      (match pre with
       | [] => (defaultScheme, url)
       | c0 :: _ =>
         if c0.isAlpha && pre.all isSchemeChar then (pre.map Char.toLower, after)
         else (defaultScheme, url))
    | none => (defaultScheme, url)
  let scheme := schemeSplit.1
  let rest := schemeSplit.2
  let netlocSplit : List Char × List Char :=
    if listStartsWith ['/', '/'] rest then
      ((rest.drop 2).takeWhile (fun c => !isNetlocEnd c),
       (rest.drop 2).dropWhile (fun c => !isNetlocEnd c))
    else ([], rest)
  let fragSplit : List Char × List Char :=
    match splitAtChar '#' netlocSplit.2 with
    | some (a, b) => (a, b)
    | none => (netlocSplit.2, [])
  let querySplit : List Char × List Char :=
    match splitAtChar '?' fragSplit.1 with
    | some (a, b) => (a, b)
    | none => (fragSplit.1, [])
  ⟨scheme, netlocSplit.1, querySplit.1, querySplit.2, fragSplit.2⟩

/-- Model of `urlunsplit`. -/
def urlunsplitCore (p : SplitUrl) : List Char :=
  let url := p.path
  let url :=
    if !p.netloc.isEmpty || listStartsWith ['/', '/'] url then
      let url2 := if !url.isEmpty && !listStartsWith ['/'] url then '/' :: url else url
      '/' :: '/' :: (p.netloc ++ url2)
    else url
  let url := if !p.scheme.isEmpty then p.scheme ++ ':' :: url else url
  let url := if !p.query.isEmpty then url ++ '?' :: p.query else url
  if !p.fragment.isEmpty then url ++ '#' :: p.fragment else url

def uses_relative : List String :=
  ["", "ftp", "http", "gopher", "nntp", "imap", "wais", "file", "https",
   "shttp", "mms", "prospero", "rtsp", "rtspu", "sftp", "svn", "svn+ssh",
   "ws", "wss"]

def uses_netloc : List String :=
  ["", "ftp", "http", "gopher", "nntp", "telnet", "imap", "wais", "file",
   "mms", "https", "shttp", "snews", "prospero", "rtsp", "rtspu", "rsync",
   "svn", "svn+ssh", "sftp", "nfs", "git", "git+ssh", "ws", "wss",
   "itms-services"]

/-- Keep the first and last piece, drop empty pieces in between
(`segments[1:-1] = filter(None, segments[1:-1])`). -/
def filterInitPieces : List (List Char) → List (List Char)
  | [] => []
  | [x] => [x]
  | x :: rest =>
    if x.isEmpty then filterInitPieces rest else x :: filterInitPieces rest

def filterMiddlePieces : List (List Char) → List (List Char)
  | [] => []
  | x :: rest => x :: filterInitPieces rest

/-- The dot-segment resolution loop of `urljoin`. -/
def resolveSegs : List (List Char) → List (List Char) → List (List Char)
  | [], acc => acc
  | s :: rest, acc =>
    if s = ['.', '.'] then resolveSegs rest acc.dropLast
    else if s = ['.'] then resolveSegs rest acc
    else resolveSegs rest (acc ++ [s])

/-- Model of `urllib.parse.urljoin(base, url)`. -/
def urljoin (base url : String) : String :=
  if base = "" then url
  else if url = "" then base
  else
    let b := urlsplitCore base.data []
    let u := urlsplitCore url.data b.scheme
    if u.scheme ≠ b.scheme || !uses_relative.contains (String.mk u.scheme) then url
    else
      let inNetloc := uses_netloc.contains (String.mk u.scheme)
      if inNetloc && !u.netloc.isEmpty then String.mk (urlunsplitCore u)
      else
        let netloc := if inNetloc then b.netloc else u.netloc
        if u.path.isEmpty then
          let query := if u.query.isEmpty then b.query else u.query
          String.mk (urlunsplitCore ⟨u.scheme, netloc, b.path, query, u.fragment⟩)
        else
          let baseParts0 := splitOnChar '/' b.path
          let baseParts :=
            if baseParts0.getLastD [] ≠ [] then baseParts0.dropLast else baseParts0
          let segments :=
            if listStartsWith ['/'] u.path then splitOnChar '/' u.path
            else filterMiddlePieces (baseParts ++ splitOnChar '/' u.path)
          let resolved := resolveSegs segments []
          let lastSeg := segments.getLastD []
          let resolved :=
            if lastSeg = ['.'] || lastSeg = ['.', '.'] then resolved ++ [[]]
            else resolved
          let joined := joinWithChar '/' resolved
          let path := if joined.isEmpty then ['/'] else joined
          String.mk (urlunsplitCore ⟨u.scheme, netloc, path, u.query, u.fragment⟩)

/-! ### Shared proxy state (`ProxyState`, src/main.py lines 48-111)

The lock serialises field access in the source; in the embedding each
operation is an atomic function on the record.  Logging calls inside the
lock do not change the fields and are not modelled here. -/

structure ProxyState where
  rpc_url : String
  session_id : Option String
  rpc_ready : Bool
deriving DecidableEq, Repr

/-- Constructor `ProxyState.__init__`: url as given, no session, ready iff `initial_ready`. -/
def ProxyState.init (initial_rpc_url : String) (initial_ready : Bool) : ProxyState :=
  { rpc_url := initial_rpc_url, session_id := none, rpc_ready := initial_ready }

def ProxyState.get_rpc_url (st : ProxyState) : String := st.rpc_url

/-- Operation `set_rpc_url`: store the url and set the ready event (always). -/
def ProxyState.set_rpc_url (st : ProxyState) (url : String) : ProxyState :=
  { st with rpc_url := url, rpc_ready := true }

def ProxyState.get_session_id (st : ProxyState) : Option String := st.session_id

/-- Operation `set_session_id`: unconditionally store the given id. -/
def ProxyState.set_session_id (st : ProxyState) (session_id : String) : ProxyState :=
  { st with session_id := some session_id }

/-- Operation `clear_session`: reset the session id to `None`. -/
def ProxyState.clear_session (st : ProxyState) : ProxyState :=
  { st with session_id := none }

/-- The mutating operations the two tasks can invoke on the shared state. -/
inductive StateOp where
  | setRpcUrl (u : String)
  | setSessionId (s : String)
  | clearSession
deriving DecidableEq

def StateOp.apply : StateOp → ProxyState → ProxyState
  | .setRpcUrl u, st => st.set_rpc_url u
  | .setSessionId s, st => st.set_session_id s
  | .clearSession, st => st.clear_session

/-! ### Top-level configuration (src/main.py lines 17-18, 309-312) -/

def DEFAULT_SSE_URL : String := "https://mcp.devin.ai/sse"

def DEFAULT_RPC_URL : String := "https://mcp.devin.ai/mcp"

/-- The state constructed by `runner`:
`ProxyState(args.rpc_url, initial_ready=args.rpc_url != DEFAULT_RPC_URL)`. -/
def runner_initial_state (rpc_url_arg : String) : ProxyState :=
  ProxyState.init rpc_url_arg (rpc_url_arg != DEFAULT_RPC_URL)

/-! ### Session headers (`apply_session_headers`, src/main.py lines 114-119)

Header dicts are insertion-ordered string maps. -/

def dictSet : List (String × String) → String → String → List (String × String)
  | [], k, v => [(k, v)]
  | (k0, v0) :: rest, k, v =>
    if k0 = k then (k0, v) :: rest else (k0, v0) :: dictSet rest k v

def dictGet : List (String × String) → String → Option String
  | [], _ => none
  | (k0, v) :: rest, k => if k0 = k then some v else dictGet rest k

/-- Function `apply_session_headers`: copy the base dict and add `Mcp-Session-Id`
only when the stored session id is truthy. -/
def apply_session_headers (base_headers : List (String × String))
    (st : ProxyState) : List (String × String) :=
  match st.get_session_id with
  | some session_id =>
    if session_id ≠ "" then dictSet base_headers "Mcp-Session-Id" session_id
    else base_headers
  | none => base_headers

/-- The fixed SSE base headers built in `runner` (lines 297-299). -/
def base_sse_headers (api_key : String) : List (String × String) :=
  [("Authorization", "Bearer " ++ api_key),
   ("Accept", "text/event-stream")]

/-- The fixed RPC base headers built in `runner` (lines 300-304). -/
def base_rpc_headers (api_key : String) : List (String × String) :=
  [("Authorization", "Bearer " ++ api_key),
   ("Content-Type", "application/json"),
   ("Accept", "application/json, text/event-stream")]

/-! ### Endpoint discovery (`handle_endpoint_event`, src/main.py lines 122-148)

The function can raise: a truthy non-string extracted from the object
branch reaches `urljoin`, which raises `TypeError`; this propagates to
the caller's connection-error handler, modelled as `.error ()`. -/

def handle_endpoint_event (data : Option String) (sse_url : String)
    (st : ProxyState) : Except Unit ProxyState :=
  match data with
  | none => .ok st
  | some d =>
    let raw := pyStrip d
    if raw = "" then .ok st
    else
      let endpoint_value : Option Json :=
        match json_loads raw with
        | none => some (.str raw)
        | some (.str s) => some (.str s)
        | some (.obj kvs) =>
          pyOr (jget kvs "endpoint") (pyOr (jget kvs "url") (jget kvs "path"))
        | some _ => none
      if !pyTruthy endpoint_value then .ok st
      else match endpoint_value with
        | some (.str s) => .ok (st.set_rpc_url (urljoin sse_url s))
        | _ => .error ()

/-! ### SSE block parser (`parse_sse_block`, src/main.py lines 258-281) -/

structure SSEEvent where
  event : Option String
  data : Option String
  event_id : Option String
deriving DecidableEq, Repr

/-- The per-line loop of `parse_sse_block`, threading the three
accumulators `event_name`, `event_id`, `data_lines`. -/
def sseLoop : List (List Char) → Option (List Char) → Option (List Char) →
    List (List Char) → Option (List Char) × Option (List Char) × List (List Char)
  | [], ev, id, datas => (ev, id, datas)
  | l :: rest, ev, id, datas =>
    if l.isEmpty then sseLoop rest ev id datas
    else if listStartsWith [':'] l then sseLoop rest ev id datas
    else if listStartsWith "event:".data l then
      sseLoop rest (some (lstripChars (l.drop 6))) id datas
    else if listStartsWith "id:".data l then
      sseLoop rest ev (some (lstripChars (l.drop 3))) datas
    else if listStartsWith "data:".data l then
      sseLoop rest ev id (datas ++ [lstripChars (l.drop 5)])
    else sseLoop rest ev id datas

def parse_sse_block (block : String) : Option SSEEvent :=
  if block = "" then none
  else
    let r := sseLoop (splitOnChar '\n' block.data) none none []
    let data : Option String :=
      if r.2.2.isEmpty then none else some (String.mk (joinWithChar '\n' r.2.2))
    let event := r.1.map String.mk
    let event_id := r.2.1.map String.mk
    if data = none ∧ event = none ∧ event_id = none then none
    else some ⟨event, data, event_id⟩

/-! ### Per-event dispatch (inner loop of `read_sse_stream`,
src/main.py lines 174-193)

Given one parsed event, the new shared state and the lines written to
stdout.  An exception escaping `handle_endpoint_event` aborts the
streaming loop (`.error`). -/

def dispatch_event (ev : SSEEvent) (sse_url : String) (st : ProxyState) :
    Except Unit (ProxyState × List String) :=
  if ev.event = some "endpoint" then
    match handle_endpoint_event ev.data sse_url st with
    | .ok st2 => .ok (st2, [])
    | .error e => .error e
  else if ev.event = some "ping" then .ok (st, [])
  else match ev.data with
    | none => .ok (st, [])
    | some d =>
      let message := pyStrip d
      if message = "" then .ok (st, [])
      else match json_loads message with
        | none => .ok (st, [])
        | some _ => .ok (st, [message ++ "\n"])

/-! ### Reconnect backoff (`read_sse_stream`, src/main.py lines 158, 165,
200-201) -/

/-- Statement `backoff_seconds = 1` at function entry (line 158). -/
def initial_backoff : Nat := 1

/-- Statement `backoff_seconds = 1` after a successful connect (line 165). -/
def backoff_on_success : Nat := 1

/-- Statement `await asyncio.sleep(min(backoff_seconds, 30))` (line 200). -/
def backoff_sleep (b : Nat) : Nat := min b 30

/-- Statement `backoff_seconds = min(backoff_seconds * 2, 30)` (line 201). -/
def backoff_next (b : Nat) : Nat := min (b * 2) 30

/-- Sleep durations of `n` consecutive connection failures starting from
backoff value `b`. -/
def backoff_delays : Nat → Nat → List Nat
  | 0, _ => []
  | n + 1, b => backoff_sleep b :: backoff_delays n (backoff_next b)

/-- The delay before the `k`-th (0-based) reconnect attempt of a failure
run that started with backoff `initial_backoff`. -/
def nth_backoff_delay (k : Nat) : Nat :=
  backoff_sleep (backoff_next^[k] initial_backoff)

/-! ### RPC response handling (`forward_stdin`, src/main.py lines 230-240)

Pure view of the response branch: returns the new shared state and the
(status, body) pairs logged as errors. -/

def forward_handle_response (status : Nat) (body : String)
    (session_header : Option String) (st : ProxyState) :
    ProxyState × List (Nat × String) :=
  let step1 : ProxyState × List (Nat × String) :=
    if 400 ≤ status then
      (if status = 404 then st.clear_session else st, [(status, body)])
    else (st, [])
  let st2 :=
    match session_header with
    | some h => if h ≠ "" then step1.1.set_session_id h else step1.1
    | none => step1.1
  (st2, step1.2)

/-! ### Readiness wait (`ProxyState.wait_for_rpc_ready`,
src/main.py lines 86-111)

The body races `self._rpc_ready.wait()` against `stop_event.wait()`
with `asyncio.wait(FIRST_COMPLETED)`.  The nondeterministic outcome of
that race is an explicit parameter; `RaceOutcome.consistent` records
which flags must have become true for that outcome to be observed. -/

inductive RaceOutcome where
  | rpcDone
  | stopDone
  | bothDone
deriving DecidableEq, Repr

/-- An outcome can only be observed if the corresponding event flags were
set by the time `asyncio.wait` returned. -/
def RaceOutcome.consistent : RaceOutcome → Bool → Bool → Prop
  | .rpcDone, readyAfter, _ => readyAfter = true
  | .stopDone, _, stopAfter => stopAfter = true
  | .bothDone, readyAfter, stopAfter => readyAfter = true ∧ stopAfter = true

/-- Operation `wait_for_rpc_ready`: immediate `True` when the ready event is set;
otherwise `False` when the stop event is already set (the `while` guard
fails and the final `return False` runs); otherwise the race decides —
the code checks `wait_rpc in done` before `wait_stop in done`, so a
double completion yields `True`. -/
def ProxyState.wait_for_rpc_ready (st : ProxyState) (stop : Bool)
    (race : RaceOutcome) : Bool :=
  if st.rpc_ready then true
  else if stop then false
  else
    match race with
    | .rpcDone => true
    | .bothDone => true
    | .stopDone => false

/-! ### Stdin forwarder step (`forward_stdin`, src/main.py lines 210-230)

One loop iteration up to the point the POST is issued. -/

inductive ForwardAction where
  | stopLoop
  | skip
  | breakLoop
  | post (url : String) (headers : List (String × String)) (payload : Json)

def ForwardAction.isPost : ForwardAction → Bool
  | .post _ _ _ => true
  | _ => false

def forward_stdin_step (line : String) (base_headers : List (String × String))
    (st : ProxyState) (stop : Bool) (race : RaceOutcome) : ForwardAction :=
  if line = "" then .stopLoop
  else
    let stripped := pyStrip line
    if stripped = "" then .skip
    else match json_loads stripped with
      | none => .skip
      | some payload =>
        if st.wait_for_rpc_ready stop race then
          .post st.get_rpc_url (apply_session_headers base_headers st) payload
        else .breakLoop

/-! ### Spec-side reference definitions

These follow the wording of the specification (not the source) and are
compared with the embedded source functions in the refinement theorems
below. -/

/-- Left-trim one leading space if present (the spec's rule for the
content after an `event:`/`id:` prefix). -/
def dropOneSpace : List Char → List Char
  | ' ' :: rest => rest
  | l => l

/-- Content of a line carrying the given field prefix, post-processed
with `proc`; `none` when the line does not carry the prefix. -/
def specFieldOf (pfx : List Char) (proc : List Char → List Char)
    (l : List Char) : Option (List Char) :=
  if listStartsWith pfx l then some (proc (l.drop pfx.length)) else none

/-- Last element of the list if any, else the fallback (a later field
line overwrites an earlier one). -/
def lastOr : List (List Char) → Option (List Char) → Option (List Char)
  | [], e => e
  | x :: rest, _ => lastOr rest (some x)

/-- Shared output rule of the block parsers: assemble the event, or
nothing when no field was found. -/
def assembleSSEEvent (ev id : Option (List Char)) (datas : List (List Char)) :
    Option SSEEvent :=
  let data : Option String :=
    if datas.isEmpty then none else some (String.mk (joinWithChar '\n' datas))
  let event := ev.map String.mk
  let event_id := id.map String.mk
  if data = none ∧ event = none ∧ event_id = none then none
  else some ⟨event, data, event_id⟩

/-- The reference block parser exactly as the claim states it: `event:` /
`id:` content is left-trimmed of one leading space if present, `data:`
content is trimmed.  Modelled from the spec's words. -/
def parse_sse_block_spec (block : String) : Option SSEEvent :=
  let lines := splitOnChar '\n' block.data
  assembleSSEEvent
    (lastOr (lines.filterMap (specFieldOf "event:".data dropOneSpace)) none)
    (lastOr (lines.filterMap (specFieldOf "id:".data dropOneSpace)) none)
    (lines.filterMap (specFieldOf "data:".data stripChars))

/-- The reference block parser with the corrections the code forces:
every field's content is the text after the prefix left-stripped of all
leading whitespace (Python `lstrip()`), trailing whitespace preserved. -/
def parse_sse_block_amended (block : String) : Option SSEEvent :=
  let lines := splitOnChar '\n' block.data
  assembleSSEEvent
    (lastOr (lines.filterMap (specFieldOf "event:".data lstripChars)) none)
    (lastOr (lines.filterMap (specFieldOf "id:".data lstripChars)) none)
    (lines.filterMap (specFieldOf "data:".data lstripChars))

/-- Expected stdout lines for a non-`endpoint`, non-`ping` SSE event, as
the spec states it: the trimmed payload followed by a newline exactly
when the trimmed payload parses as JSON.  Modelled from the spec's
words. -/
def sse_message_output_spec (data : Option String) : List String :=
  match data with
  | none => []
  | some d =>
    if (json_loads (pyStrip d)).isSome then [pyStrip d ++ "\n"] else []

/-- First truthy value in a list of optional JSON values. -/
def firstTruthy (vs : List (Option Json)) : Option Json :=
  match vs.find? pyTruthy with
  | some v => v
  | none => none

/-- Endpoint decode priority as the (amended) claim states it: a JSON
string is used as is; a JSON object contributes the first truthy of the
keys `endpoint`, `url`, `path`; non-JSON text is used raw; any other
JSON value yields nothing.  Modelled from the spec's words. -/
def endpoint_decode_spec (raw : String) : Option Json :=
  match json_loads raw with
  | none => some (.str raw)
  | some (.str s) => some (.str s)
  | some (.obj kvs) =>
    firstTruthy [jget kvs "endpoint", jget kvs "url", jget kvs "path"]
  | some _ => none

/-- The endpoint-event handler as the (amended) claim states it: decode,
drop falsy results, resolve a string against the SSE URL and store it; a
truthy non-string escapes as an error.  Modelled from the spec's words. -/
def endpoint_event_spec (data : Option String) (sse_url : String)
    (st : ProxyState) : Except Unit ProxyState :=
  match data with
  | none => .ok st
  | some d =>
    let raw := pyStrip d
    if raw = "" then .ok st
    else match endpoint_decode_spec raw with
      | none => .ok st
      | some v =>
        if !v.truthy then .ok st
        else match v with
          | .str s => .ok (st.set_rpc_url (urljoin sse_url s))
          | _ => .error ()

/-! ## Theorems -/

/-- C7: the readiness flag is monotonic — no shared-state operation ever
resets it from `true` to `false` — and every `set_rpc_url` call marks the
state ready. -/
theorem c7_ready_monotonic :
    (∀ (op : StateOp) (st : ProxyState),
      st.rpc_ready = true → (op.apply st).rpc_ready = true)
    ∧ (∀ (u : String) (st : ProxyState),
      ((StateOp.setRpcUrl u).apply st).rpc_ready = true) := by
  constructor
  · intro op st h
    cases op <;>
      simp [StateOp.apply, ProxyState.set_rpc_url, ProxyState.set_session_id,
        ProxyState.clear_session, h]
  · intro u st
    rfl

/-- Witness for C7 at a concrete state and operation. -/
theorem c7_ready_monotonic_witness :
    ((StateOp.setSessionId "sid").apply
      (ProxyState.mk "https://h/rpc" none true)).rpc_ready = true :=
  c7_ready_monotonic.1 (StateOp.setSessionId "sid")
    (ProxyState.mk "https://h/rpc" none true) rfl

/-- C8: the state built by `runner` starts ready exactly when the
configured RPC URL differs from the default RPC URL. -/
theorem c8_initial_readiness :
    ∀ u : String,
      ((runner_initial_state u).rpc_ready = true ↔ u ≠ DEFAULT_RPC_URL)
      ∧ (runner_initial_state u).rpc_url = u
      ∧ (runner_initial_state u).session_id = none := by
  intro u
  refine ⟨?_, rfl, rfl⟩
  simp [runner_initial_state, ProxyState.init, bne_iff_ne]

/-- C9: a parsed event of type `ping` produces no output and leaves the
shared state untouched. -/
theorem c9_ping_ignored :
    ∀ (ev : SSEEvent) (sse_url : String) (st : ProxyState),
      ev.event = some "ping" → dispatch_event ev sse_url st = .ok (st, []) := by
  intro ev sse_url st h
  unfold dispatch_event
  rw [h]
  simp

/-- Witness for C9 at a concrete ping event. -/
theorem c9_ping_ignored_witness :
    dispatch_event (SSEEvent.mk (some "ping") (some "x") none) "https://h/sse"
        (ProxyState.mk "https://h/rpc" none false)
      = .ok (ProxyState.mk "https://h/rpc" none false, []) :=
  c9_ping_ignored (SSEEvent.mk (some "ping") (some "x") none) "https://h/sse"
    (ProxyState.mk "https://h/rpc" none false) rfl

/-- The backoff value after `k` doublings of the initial value is
`min (2 ^ k) 30`. -/
theorem backoff_next_iterate (k : Nat) :
    backoff_next^[k] initial_backoff = min (2 ^ k) 30 := by
  induction k with
  | zero => rfl
  | succ n ih =>
    rw [Function.iterate_succ_apply', ih]
    have hp : (2 : Nat) ^ (n + 1) = 2 ^ n * 2 := pow_succ 2 n
    unfold backoff_next
    omega

/-- C4: consecutive connection failures sleep 1, 2, 4, 8, 16, 30, 30, …
time units — the `k`-th delay is `min (2 ^ k) 30` — and a successful
connection resets the backoff to the initial 1, so the next failure
sleeps 1 again. -/
theorem c4_backoff_schedule :
    (∀ k : Nat, nth_backoff_delay k = min (2 ^ k) 30)
    ∧ backoff_delays 7 initial_backoff = [1, 2, 4, 8, 16, 30, 30]
    ∧ backoff_on_success = initial_backoff
    ∧ backoff_sleep backoff_on_success = 1 := by
  refine ⟨?_, by decide, rfl, rfl⟩
  intro k
  unfold nth_backoff_delay
  rw [backoff_next_iterate]
  unfold backoff_sleep
  omega

/-- C10: on both outgoing request paths (the SSE GET and the RPC POST),
the built headers carry `Mcp-Session-Id: v` exactly when the stored
session id is the non-empty string `v`; an absent or empty session id
contributes no header. -/
theorem c10_session_header :
    ∀ (api_key : String) (st : ProxyState) (v : String),
      (dictGet (apply_session_headers (base_sse_headers api_key) st)
          "Mcp-Session-Id" = some v
        ↔ st.session_id = some v ∧ v ≠ "")
      ∧ (dictGet (apply_session_headers (base_rpc_headers api_key) st)
          "Mcp-Session-Id" = some v
        ↔ st.session_id = some v ∧ v ≠ "") := by
  intro key st v
  rcases st with ⟨url, sid, rdy⟩
  rcases sid with _ | s
  · constructor <;>
      simp [apply_session_headers, ProxyState.get_session_id,
        base_sse_headers, base_rpc_headers, dictGet]
  · by_cases hs : s = ""
    · subst hs
      constructor <;>
        (simp [apply_session_headers, ProxyState.get_session_id,
           base_sse_headers, base_rpc_headers, dictGet]
         rintro rfl
         simp)
    · constructor <;>
        (simp [apply_session_headers, ProxyState.get_session_id,
           base_sse_headers, base_rpc_headers, dictGet, dictSet, hs]
         rintro rfl
         exact hs)

/-- C5 counterexample: a 200 response that carries the session header
with the empty string as value.  The claim says the stored session id is
set to that header's value; the code's truthiness guard skips the update
and the old id survives. -/
theorem c5_counterexample :
    (forward_handle_response 200 "" (some "")
        (ProxyState.mk "https://h/rpc" (some "old") true)).1.session_id
      = some "old"
    ∧ some "old" ≠ (some "" : Option String) := by
  constructor
  · rfl
  · decide

/-- C5 (amended): a status ≥ 400 logs the status and body; a 404 with no
usable session header clears the session id; a non-empty session header
always wins, independent of status; an absent or empty header leaves the
session id unchanged apart from the 404 clearing; nothing else changes. -/
theorem c5_response_handling :
    ∀ (status : Nat) (body : String) (hdr : Option String) (st : ProxyState),
      (400 ≤ status → (forward_handle_response status body hdr st).2 = [(status, body)])
      ∧ (status < 400 → (forward_handle_response status body hdr st).2 = [])
      ∧ (∀ h, hdr = some h → h ≠ "" →
          (forward_handle_response status body hdr st).1.session_id = some h)
      ∧ (hdr = none ∨ hdr = some "" →
          (forward_handle_response status body hdr st).1.session_id
            = if status = 404 then none else st.session_id)
      ∧ (forward_handle_response status body hdr st).1.rpc_url = st.rpc_url
      ∧ (forward_handle_response status body hdr st).1.rpc_ready = st.rpc_ready := by
  intro status body hdr st
  unfold forward_handle_response
  refine ⟨?_, ?_, ?_, ?_, ?_, ?_⟩
  · intro h400
    simp [h400]
  · intro hlt
    have : ¬ 400 ≤ status := by omega
    simp [this]
  · rintro h rfl hne
    simp [hne, ProxyState.set_session_id]
  · rintro (rfl | rfl) <;>
      · by_cases h404 : status = 404
        · simp [h404, ProxyState.clear_session]
        · by_cases h400 : 400 ≤ status <;>
            simp [h404, h400, ProxyState.clear_session]
  · rcases hdr with _ | h
    · by_cases h404 : status = 404 <;> by_cases h400 : 400 ≤ status <;>
        simp [h404, h400, ProxyState.clear_session]
    · by_cases hne : h = "" <;> by_cases h404 : status = 404 <;>
        by_cases h400 : 400 ≤ status <;>
        simp [hne, h404, h400, ProxyState.clear_session, ProxyState.set_session_id]
  · rcases hdr with _ | h
    · by_cases h404 : status = 404 <;> by_cases h400 : 400 ≤ status <;>
        simp [h404, h400, ProxyState.clear_session]
    · by_cases hne : h = "" <;> by_cases h404 : status = 404 <;>
        by_cases h400 : 400 ≤ status <;>
        simp [hne, h404, h400, ProxyState.clear_session, ProxyState.set_session_id]

/-- Witness for C5 (amended) at a concrete 404 response without a
session header. -/
theorem c5_response_handling_witness :
    (forward_handle_response 404 "not found" none
        (ProxyState.mk "https://h/rpc" (some "sid") true)).1.session_id = none := by
  have h := (c5_response_handling 404 "not found" none
    (ProxyState.mk "https://h/rpc" (some "sid") true)).2.2.2.1 (Or.inl rfl)
  simpa using h

/-- C6: `wait_for_rpc_ready` returns `true` immediately when readiness
is already set; a `false` return means readiness was not set and the
stop signal won (it was either already set at entry or the only
completed waiter); when neither flag was set at entry, a `true` return
implies readiness had become true by the time the race completed.
Consequently, with the non-overridden initial state (readiness false), a
stdin line reaches the POST only after readiness became true. -/
theorem c6_wait_for_ready :
    (∀ (st : ProxyState) (stop : Bool) (race : RaceOutcome),
      st.rpc_ready = true → st.wait_for_rpc_ready stop race = true)
    ∧ (∀ (st : ProxyState) (stop : Bool) (race : RaceOutcome)
        (readyAfter stopAfter : Bool), race.consistent readyAfter stopAfter →
      st.wait_for_rpc_ready stop race = false →
      st.rpc_ready = false ∧ (stop = true ∨ stopAfter = true))
    ∧ (∀ (st : ProxyState) (stop : Bool) (race : RaceOutcome)
        (readyAfter stopAfter : Bool), race.consistent readyAfter stopAfter →
      st.rpc_ready = false → stop = false →
      st.wait_for_rpc_ready stop race = true → readyAfter = true)
    ∧ (∀ (line api_key : String) (race : RaceOutcome)
        (readyAfter stopAfter : Bool), race.consistent readyAfter stopAfter →
      (forward_stdin_step line (base_rpc_headers api_key)
        (runner_initial_state DEFAULT_RPC_URL) false race).isPost = true →
      readyAfter = true) := by
  refine ⟨?_, ?_, ?_, ?_⟩
  · intro st stop race h
    simp [ProxyState.wait_for_rpc_ready, h]
  · intro st stop race readyAfter stopAfter hcons hfalse
    by_cases hr : st.rpc_ready = true
    · simp [ProxyState.wait_for_rpc_ready, hr] at hfalse
    · refine ⟨by simpa using hr, ?_⟩
      by_cases hs : stop = true
      · exact Or.inl hs
      · right
        have hrb : st.rpc_ready = false := by simpa using hr
        have hsb : stop = false := by simpa using hs
        cases race with
        | rpcDone => simp [ProxyState.wait_for_rpc_ready, hrb, hsb] at hfalse
        | bothDone => simp [ProxyState.wait_for_rpc_ready, hrb, hsb] at hfalse
        | stopDone => exact hcons
  · intro st stop race readyAfter stopAfter hcons hrb hsb htrue
    cases race with
    | rpcDone => exact hcons
    | bothDone => exact hcons.1
    | stopDone => simp [ProxyState.wait_for_rpc_ready, hrb, hsb] at htrue
  · intro line api_key race readyAfter stopAfter hcons hpost
    have hrb : (runner_initial_state DEFAULT_RPC_URL).rpc_ready = false := rfl
    unfold forward_stdin_step at hpost
    by_cases hline : line = ""
    · simp [hline, ForwardAction.isPost] at hpost
    · by_cases hstrip : pyStrip line = ""
      · simp [hline, hstrip, ForwardAction.isPost] at hpost
      · rcases hj : json_loads (pyStrip line) with _ | payload
        · simp [hline, hstrip, hj, ForwardAction.isPost] at hpost
        · by_cases hw : (runner_initial_state DEFAULT_RPC_URL).wait_for_rpc_ready
              false race = true
          · cases race with
            | rpcDone => exact hcons
            | bothDone => exact hcons.1
            | stopDone => simp [ProxyState.wait_for_rpc_ready, hrb] at hw
          · simp [hline, hstrip, hj, hw, ForwardAction.isPost] at hpost

/-- Witness for C6 at a concrete already-ready state. -/
theorem c6_wait_for_ready_witness :
    ProxyState.wait_for_rpc_ready (ProxyState.mk "https://h/rpc" none true)
      false RaceOutcome.stopDone = true :=
  c6_wait_for_ready.1 (ProxyState.mk "https://h/rpc" none true) false
    RaceOutcome.stopDone rfl

/-- Python `json.loads` rejects the empty string. -/
theorem json_loads_empty : json_loads "" = none := rfl

/-- C3: for a parsed event whose type is neither `endpoint` nor `ping`
(absent included), the shared state is unchanged and exactly one line —
the trimmed payload plus a newline — is written when the trimmed payload
parses as JSON, and nothing otherwise; moreover this branch is the sole
producer of output: any dispatch that writes at all is such an event and
writes exactly that line. -/
theorem c3_message_events :
    (∀ (ev : SSEEvent) (sse_url : String) (st : ProxyState),
      ev.event ≠ some "endpoint" → ev.event ≠ some "ping" →
      dispatch_event ev sse_url st = .ok (st, sse_message_output_spec ev.data))
    ∧ (∀ (ev : SSEEvent) (sse_url : String) (st : ProxyState)
        (res : ProxyState × List String),
      dispatch_event ev sse_url st = .ok res → res.2 ≠ [] →
      ev.event ≠ some "endpoint" ∧ ev.event ≠ some "ping" ∧ res.1 = st ∧
      res.2 = sse_message_output_spec ev.data) := by
  have hmain : ∀ (ev : SSEEvent) (sse_url : String) (st : ProxyState),
      ev.event ≠ some "endpoint" → ev.event ≠ some "ping" →
      dispatch_event ev sse_url st = .ok (st, sse_message_output_spec ev.data) := by
    intro ev sse_url st hne hnp
    unfold dispatch_event
    rw [if_neg hne, if_neg hnp]
    rcases ev.data with _ | d
    · rfl
    · simp only [sse_message_output_spec]
      by_cases hs : pyStrip d = ""
      · rw [if_pos hs, hs, json_loads_empty]
        rfl
      · rw [if_neg hs]
        rcases hj : json_loads (pyStrip d) with _ | v <;> simp [hj]
  constructor
  · exact hmain
  · intro ev sse_url st res hdisp hout
    by_cases hne : ev.event = some "endpoint"
    · exfalso
      unfold dispatch_event at hdisp
      rw [if_pos hne] at hdisp
      rcases hh : handle_endpoint_event ev.data sse_url st with st2 | st2 <;>
        rw [hh] at hdisp
      · cases hdisp
      · cases hdisp
        exact hout rfl
    · by_cases hnp : ev.event = some "ping"
      · exfalso
        unfold dispatch_event at hdisp
        rw [if_neg hne, if_pos hnp] at hdisp
        cases hdisp
        exact hout rfl
      · have h := hmain ev sse_url st hne hnp
        rw [h] at hdisp
        cases hdisp
        exact ⟨hne, hnp, rfl, rfl⟩

/-- Witness for C3 at a concrete message event with a JSON payload. -/
theorem c3_message_events_witness :
    dispatch_event
        (SSEEvent.mk (some "message") (some " \x7b\"a\": 1\x7d ") none)
        "https://h/sse" (ProxyState.mk "https://h/rpc" none false)
      = .ok (ProxyState.mk "https://h/rpc" none false, ["\x7b\"a\": 1\x7d\n"]) :=
  (c3_message_events.1
    (SSEEvent.mk (some "message") (some " \x7b\"a\": 1\x7d ") none)
    "https://h/sse" (ProxyState.mk "https://h/rpc" none false)
    (by decide) (by decide)).trans rfl

/-- Python's `a or b or c` agrees with "first truthy of the three" when
the chain is truthy, and yields nothing usable when it is not. -/
theorem pyOr3_firstTruthy (a b c : Option Json) :
    (pyTruthy (pyOr a (pyOr b c)) = true →
      firstTruthy [a, b, c] = pyOr a (pyOr b c))
    ∧ (pyTruthy (pyOr a (pyOr b c)) = false → firstTruthy [a, b, c] = none) := by
  by_cases ha : pyTruthy a = true <;> by_cases hb : pyTruthy b = true <;>
    by_cases hc : pyTruthy c = true <;>
    constructor <;> intro h <;>
    simp_all [firstTruthy, List.find?, pyOr]

/-- C1 counterexample: payload `{"endpoint": "", "url": "/x"}` on SSE URL
`https://host/sse`.  The first *present* key is `endpoint` with the empty
string, so by the claim the event is dropped and the state unchanged; the
code's `or`-chain skips the falsy value, resolves `/x` and mutates the
state. -/
theorem c1_counterexample :
    handle_endpoint_event (some "\x7b\"endpoint\": \"\", \"url\": \"/x\"\x7d")
        "https://host/sse" (ProxyState.init DEFAULT_RPC_URL false)
      = .ok ((ProxyState.init DEFAULT_RPC_URL false).set_rpc_url "https://host/x")
    ∧ (ProxyState.init DEFAULT_RPC_URL false).set_rpc_url "https://host/x"
      ≠ ProxyState.init DEFAULT_RPC_URL false := by
  constructor
  · rfl
  · decide

/-- C1 (amended): `handle_endpoint_event` implements the claim's decode
priority with "first present key" replaced by "first truthy key": a JSON
string payload is used as is, an object contributes the first truthy of
`endpoint`/`url`/`path`, non-JSON text is used raw; a falsy result drops
the event leaving the state unchanged; a truthy string is resolved
against the SSE URL with `urljoin` and stored via `set_rpc_url` (a truthy
non-string escapes as an error).  In particular payload
`{"url": "/mcp/abc"}` with SSE URL `https://host/sse` stores the RPC URL
`https://host/mcp/abc`. -/
theorem c1_endpoint_resolution :
    (∀ (data : Option String) (sse_url : String) (st : ProxyState),
      handle_endpoint_event data sse_url st = endpoint_event_spec data sse_url st)
    ∧ (∀ st : ProxyState,
      handle_endpoint_event (some "\x7b\"url\": \"/mcp/abc\"\x7d")
          "https://host/sse" st
        = .ok (st.set_rpc_url "https://host/mcp/abc")) := by
  constructor
  · intro data sse_url st
    rcases data with _ | d
    · rfl
    · unfold handle_endpoint_event endpoint_event_spec
      by_cases hraw : pyStrip d = ""
      · simp [hraw]
      · simp only [hraw, reduceIte]
        rcases hj : json_loads (pyStrip d) with _ | v
        · simp [endpoint_decode_spec, hj, pyTruthy, Json.truthy, hraw]
        · cases v with
          | str s =>
            by_cases hs : s = "" <;>
              simp [endpoint_decode_spec, hj, pyTruthy, Json.truthy, hs]
          | obj kvs =>
            simp only [endpoint_decode_spec, hj]
            by_cases ht : pyTruthy (pyOr (jget kvs "endpoint")
                (pyOr (jget kvs "url") (jget kvs "path"))) = true
            · rw [(pyOr3_firstTruthy _ _ _).1 ht]
              rcases hv : pyOr (jget kvs "endpoint")
                  (pyOr (jget kvs "url") (jget kvs "path")) with _ | w
              · rw [hv] at ht
                simp [pyTruthy] at ht
              · rw [hv] at ht
                cases w <;> simp_all [pyTruthy]
            · have hf : pyTruthy (pyOr (jget kvs "endpoint")
                  (pyOr (jget kvs "url") (jget kvs "path"))) = false := by
                simpa using ht
              rw [(pyOr3_firstTruthy _ _ _).2 hf]
              simp [hf]
          | null => simp [endpoint_decode_spec, hj, pyTruthy]
          | bool b => simp [endpoint_decode_spec, hj, pyTruthy]
          | num m e => simp [endpoint_decode_spec, hj, pyTruthy]
          | nonfinite n i => simp [endpoint_decode_spec, hj, pyTruthy]
          | arr xs => simp [endpoint_decode_spec, hj, pyTruthy]
  · intro st
    rfl

/-- Two prefixes with different first characters cannot match the same
line. -/
theorem startsWith_disjoint (p q : Char) (ps qs l : List Char) (hpq : q ≠ p)
    (h : listStartsWith (p :: ps) l = true) :
    listStartsWith (q :: qs) l = false := by
  cases l with
  | nil => simp [listStartsWith] at h
  | cons c t =>
    simp only [listStartsWith, Bool.and_eq_true, decide_eq_true_eq] at h
    simp only [listStartsWith, Bool.and_eq_false_iff]
    left
    simp [← h.1, hpq]

/-- The three-accumulator loop of `parse_sse_block` computes, per field,
the last matching line's left-stripped content (and all `data:` contents
in order). -/
theorem sseLoop_spec (lines : List (List Char)) :
    ∀ ev id datas,
      sseLoop lines ev id datas =
        (lastOr (lines.filterMap (specFieldOf "event:".data lstripChars)) ev,
         lastOr (lines.filterMap (specFieldOf "id:".data lstripChars)) id,
         datas ++ lines.filterMap (specFieldOf "data:".data lstripChars)) := by
  induction lines with
  | nil =>
    intro ev id datas
    simp [sseLoop, lastOr]
  | cons l rest ih =>
    intro ev id datas
    rcases hl : l with _ | ⟨c, t⟩
    · simpa [sseLoop, List.filterMap_cons, specFieldOf, listStartsWith] using
        ih ev id datas
    · rw [← hl]
      have hnonnil : l.isEmpty = false := by rw [hl]; rfl
      by_cases hcom : listStartsWith [':'] l = true
      · have he : listStartsWith "event:".data l = false :=
          startsWith_disjoint ':' 'e' [] _ l (by decide) hcom
        have hi : listStartsWith "id:".data l = false :=
          startsWith_disjoint ':' 'i' [] _ l (by decide) hcom
        have hd : listStartsWith "data:".data l = false :=
          startsWith_disjoint ':' 'd' [] _ l (by decide) hcom
        simpa [sseLoop, hnonnil, hcom, List.filterMap_cons, specFieldOf,
          he, hi, hd] using ih ev id datas
      · by_cases hev : listStartsWith "event:".data l = true
        · have hc : listStartsWith [':'] l = false :=
            startsWith_disjoint 'e' ':' _ [] l (by decide) hev
          have hi : listStartsWith "id:".data l = false :=
            startsWith_disjoint 'e' 'i' _ _ l (by decide) hev
          have hd : listStartsWith "data:".data l = false :=
            startsWith_disjoint 'e' 'd' _ _ l (by decide) hev
          simpa [sseLoop, hnonnil, hc, hev, hi, hd, List.filterMap_cons,
            specFieldOf, lastOr] using
            ih (some (lstripChars (l.drop 6))) id datas
        · by_cases hid : listStartsWith "id:".data l = true
          · have hc : listStartsWith [':'] l = false :=
              startsWith_disjoint 'i' ':' _ [] l (by decide) hid
            have hd : listStartsWith "data:".data l = false :=
              startsWith_disjoint 'i' 'd' _ _ l (by decide) hid
            have hevf : listStartsWith "event:".data l = false := by
              simpa using hev
            simpa [sseLoop, hnonnil, hc, hevf, hid, hd, List.filterMap_cons,
              specFieldOf, lastOr] using
              ih ev (some (lstripChars (l.drop 3))) datas
          · by_cases hda : listStartsWith "data:".data l = true
            · have hc : listStartsWith [':'] l = false :=
                startsWith_disjoint 'd' ':' _ [] l (by decide) hda
              have hevf : listStartsWith "event:".data l = false := by
                simpa using hev
              have hidf : listStartsWith "id:".data l = false := by
                simpa using hid
              simpa [sseLoop, hnonnil, hc, hevf, hidf, hda,
                List.filterMap_cons, specFieldOf] using
                ih ev id (datas ++ [lstripChars (l.drop 5)])
            · have hcf : listStartsWith [':'] l = false ∨
                  listStartsWith [':'] l = true := by
                cases listStartsWith [':'] l
                · exact Or.inl rfl
                · exact Or.inr rfl
              have hevf : listStartsWith "event:".data l = false := by
                simpa using hev
              have hidf : listStartsWith "id:".data l = false := by
                simpa using hid
              have hdaf : listStartsWith "data:".data l = false := by
                simpa using hda
              rcases hcf with hcf | hcf
              · simpa [sseLoop, hnonnil, hcf, hevf, hidf, hdaf,
                  List.filterMap_cons, specFieldOf] using ih ev id datas
              · simpa [sseLoop, hnonnil, hcf, hevf, hidf, hdaf,
                  List.filterMap_cons, specFieldOf] using ih ev id datas

/-- C2 counterexample: the block `event:  x` (two spaces).  The code's
`lstrip()` removes both spaces, the claim's reference removes only one
leading space. -/
theorem c2_counterexample :
    parse_sse_block "event:  x" ≠ parse_sse_block_spec "event:  x" := by
  decide

/-- C2 (amended): the SSE block parser equals the claim's reference
function with "left-trimmed of one leading space" / "trimmed" corrected
to Python `lstrip()`: every field's content is the text after the prefix
stripped of all leading whitespace, trailing whitespace preserved. -/
theorem c2_parser_reference :
    ∀ block : String, parse_sse_block block = parse_sse_block_amended block := by
  intro block
  unfold parse_sse_block parse_sse_block_amended assembleSSEEvent
  by_cases hb : block = ""
  · subst hb
    rfl
  · rw [if_neg hb, sseLoop_spec]
    simp

end Proxy
